import Mathlib

/-!
Verification development for the EC2-style metadata endpoint of
`internal/http/handler/ec2.go` (tinkerbell/hegel).

The Go file has three parts that the properties below are about:

* `ec2Filters` — a map from canonical request path to a gojq filter string;
* `filterMetadata` — parses the filter, unmarshals the hardware JSON into a
  `map[string]interface{}`, runs the query and renders the result stream
  (raw bytes for strings, JSON text otherwise, `nil` skipped, one `'\n'`
  after each item, one trailing `'\n'` trimmed at the end);
* `processEC2Query` — strips the `"/2009-04-04"` prefix and trailing `'/'`
  characters from the URL and looks the canonical key up in `ec2Filters`.

Shallow embedding conventions:

* Go's generic JSON value (`interface{}` holding `nil`, `bool`, numbers,
  `string`, `[]interface{}`, `map[string]interface{}`) is the inductive
  `Json` below.  Numbers are modelled as integers: no registry query does
  arithmetic, and every numeric literal in the registry (`4`, `6`) is an
  integer, so float behaviour is never exercised.
* Go maps are modelled as association lists whose key order is the sorted
  key order in which both `encoding/json` and gojq iterate Go maps.
* Each gojq construct used by the registry is embedded as a combinator on
  result streams (`Stream` = values yielded in order, plus the error that
  aborted evaluation, if any).  Each registry filter string is embedded as
  the corresponding composition of these combinators; `gojqParse` maps a
  registered filter string to its embedded query, modelling
  `gojq.Parse` restricted to the program's own filter strings (the parser
  itself is an external library, out of scope for the repository).
* `[]byte` results and errors are modelled as `String`.
-/

namespace Hegel

/-- Generic JSON value, as produced by `encoding/json` unmarshalling into
`interface{}` and consumed by gojq. -/
inductive Json where
  | null
  | bool (b : Bool)
  | num (n : Int)
  | str (s : String)
  | arr (xs : List Json)
  | obj (kvs : List (String × Json))

mutual
/-- Deep value equality of JSON values (gojq's `==` on Go values; objects
are compared in the sorted key order the association lists are kept in). -/
def jsonEq : Json → Json → Bool
  | .null, .null => true
  | .bool a, .bool b => a == b
  | .num a, .num b => a == b
  | .str a, .str b => a == b
  | .arr xs, .arr ys => jsonEqList xs ys
  | .obj xs, .obj ys => jsonEqObj xs ys
  | _, _ => false
/-- Elementwise equality of JSON arrays. -/
def jsonEqList : List Json → List Json → Bool
  | [], [] => true
  | x :: xs, y :: ys => jsonEq x y && jsonEqList xs ys
  | _, _ => false
/-- Entrywise equality of JSON objects. -/
def jsonEqObj : List (String × Json) → List (String × Json) → Bool
  | [], [] => true
  | (k, v) :: xs, (l, w) :: ys => k == l && jsonEq v w && jsonEqObj xs ys
  | _, _ => false
end

/-- A result stream of one query evaluation: the values yielded in order
before evaluation finished, and the error that aborted it, if any
(gojq's `iter.Next()` sequence as consumed by `filterMetadata`, which
stops at the first error value). -/
abbrev Stream := List Json × Option String

/-- An embedded gojq filter: a function from the input JSON value to the
result stream of running the filter on it. -/
abbrev Query := Json → Stream

/-- First error of two: the one that occurred earlier in evaluation order. -/
def firstErr : Option String → Option String → Option String
  | some e, _ => some e
  | none, o => o

/-- gojq truthiness: everything is truthy except `null` and `false`. -/
def jqTruthy : Json → Bool
  | .null => false
  | .bool false => false
  | _ => true

/-- Rank of a JSON value in gojq's total order:
null < false < true < numbers < strings < arrays < objects. -/
def typeRank : Json → Nat
  | .null => 0
  | .bool false => 1
  | .bool true => 2
  | .num _ => 3
  | .str _ => 4
  | .arr _ => 5
  | .obj _ => 6

/-- Lexicographic code-point order on strings as a Boolean `≤`
(Go's `<=` on strings, for the ASCII names the registry compares). -/
def strLeL : List Char → List Char → Bool
  | [], _ => true
  | _ :: _, [] => false
  | a :: as, b :: bs =>
    if a.toNat < b.toNat then true
    else if b.toNat < a.toNat then false
    else strLeL as bs

/-- gojq's value order as a Boolean `≤`.  Scalar comparisons are exact
(strings by lexicographic code-point order, matching Go string order for
the ASCII names the registry sorts); the deep structural comparison of
two arrays or two objects is collapsed, since every `sort` in the
registry runs on an array of strings. -/
def jqLeb (a b : Json) : Bool :=
  match a, b with
  | .num x, .num y => x ≤ y
  | .str x, .str y => strLeL x.data y.data
  | .arr _, .arr _ => true
  | .obj _, .obj _ => true
  | x, y => typeRank x ≤ typeRank y

/-- Insert a value into a list that is already sorted by `jqLeb`. -/
def insertSorted (x : Json) : List Json → List Json
  | [] => [x]
  | y :: ys => if jqLeb x y then x :: y :: ys else y :: insertSorted x ys

/-- Sort a list of JSON values by gojq's value order (`sort` builtin). -/
def jqSortList : List Json → List Json
  | [] => []
  | x :: xs => insertSorted x (jqSortList xs)

/-- Run a query on each value of a list in order, concatenating the
outputs and stopping at the first error — the elaboration of a stream
through the right-hand side of a pipe. -/
def seqRun (h : Query) : List Json → Stream
  | [] => ([], none)
  | v :: vs =>
    match h v with
    | (ws, some e) => (ws, some e)
    | (ws, none) =>
      match seqRun h vs with
      | (ws2, e2) => (ws ++ ws2, e2)

/-- Constant filter (string, number, boolean and array literals). -/
def jqConst (v : Json) : Query := fun _ => ([v], none)

/-- Field access `.name`: on an object the field's value (or `null` when
absent), on `null` the value `null`, an error on any other input. -/
def jqField (name : String) : Query
  | .null => ([.null], none)
  | .obj kvs => ([(List.lookup name kvs).getD .null], none)
  | _ => ([], some ("expected an object but got incompatible value for ." ++ name))

/-- Pipe `f | g`: feed every output of `f` through `g`; an error in `g`
aborts first, otherwise an error of `f` surfaces after all outputs. -/
def jqPipe (f g : Query) : Query := fun x =>
  match f x with
  | (vs, ef) =>
    match seqRun g vs with
    | (ws, eg) => (ws, firstErr eg ef)

/-- Comma `f, g`: outputs of `f` then outputs of `g`; an error in `f`
cuts `g` off. -/
def jqComma (f g : Query) : Query := fun x =>
  match f x with
  | (vs, some e) => (vs, some e)
  | (vs, none) =>
    match g x with
    | (ws, e) => (vs ++ ws, e)

/-- Iteration `.[]`: yield every element of an array (or every value of
an object in key order); an error on any other input. -/
def jqIterate : Query
  | .arr xs => (xs, none)
  | .obj kvs => (kvs.map (·.2), none)
  | _ => ([], some "cannot iterate over non-iterable value")

/-- Error-suppressing iteration `.[]?`: like `.[]` but yields nothing on
a non-iterable input instead of an error. -/
def jqTryIterate : Query
  | .arr xs => (xs, none)
  | .obj kvs => (kvs.map (·.2), none)
  | _ => ([], none)

/-- The `sort` builtin: sorts an array, an error on any other input. -/
def jqSort : Query
  | .arr xs => ([.arr (jqSortList xs)], none)
  | _ => ([], some "cannot sort non-array value")

/-- The `select(p)` builtin: yields the input once for every truthy
output of `p`. -/
def jqSelect (p : Query) : Query := fun x =>
  match p x with
  | (pvs, e) => (pvs.filterMap (fun pv => if jqTruthy pv then some x else none), e)

/-- Conditional `if c then t else e end`: for each output of the
condition, run the chosen branch on the original input. -/
def jqIf (c t e : Query) : Query := fun x =>
  match c x with
  | (cs, ec) =>
    match seqRun (fun cv => if jqTruthy cv then t x else e x) cs with
    | (ws, e2) => (ws, firstErr e2 ec)

/-- Apply a binary value operation to every pair of operand outputs
(right operand outermost, as gojq iterates), stopping at the first
operation error. -/
def opAll (op : Json → Json → Except String Json) : List (Json × Json) → Stream
  | [] => ([], none)
  | (a, b) :: rest =>
    match op a b with
    | .error e => ([], some e)
    | .ok v =>
      match opAll op rest with
      | (vs, e) => (v :: vs, e)

/-- Operand pairs of a binary operator, right operand in the outer loop. -/
def pairsRL (as bs : List Json) : List (Json × Json) :=
  bs.flatMap (fun b => as.map (fun a => (a, b)))

/-- Binary operator `f op g` on streams.  Every binary operator in the
registry has single-valued operands, so the error-interleaving order
between multi-valued erroring operands is never exercised. -/
def jqBinop (op : Json → Json → Except String Json) (f g : Query) : Query := fun x =>
  match f x with
  | (as, ea) =>
    match g x with
    | (bs, eb) =>
      match opAll op (pairsRL as bs) with
      | (vs, e) => (vs, firstErr ea (firstErr eb e))

/-- Value-level `+`: array and string concatenation, integer addition,
`null` is the identity; an error on incompatible operands. -/
def addVal : Json → Json → Except String Json
  | .null, b => .ok b
  | a, .null => .ok a
  | .arr xs, .arr ys => .ok (.arr (xs ++ ys))
  | .str x, .str y => .ok (.str (x ++ y))
  | .num x, .num y => .ok (.num (x + y))
  | .obj xs, .obj ys => .ok (.obj (ys ++ xs))
  | _, _ => .error "cannot add incompatible values"

/-- Value-level `==`. -/
def eqVal (a b : Json) : Except String Json := .ok (.bool (jsonEq a b))

/-- Value-level `!=`. -/
def neVal (a b : Json) : Except String Json := .ok (.bool (!jsonEq a b))

/-- Short-circuiting `f and g`: a falsy output of `f` yields `false`
without running `g`; a truthy one yields the truthiness of each output
of `g`. -/
def jqAnd (f g : Query) : Query := fun x =>
  match f x with
  | (as, ea) =>
    match seqRun (fun a =>
        if jqTruthy a then
          match g x with
          | (bs, eb) => (bs.map (fun b => .bool (jqTruthy b)), eb)
        else ([.bool false], none)) as with
    | (ws, e) => (ws, firstErr e ea)

/-- Escape one character the way Go's `encoding/json` does inside a
string literal (backslash, quote, control characters, and the HTML-safe
escapes for angle brackets and ampersand). -/
def escapeChar (c : Char) : String :=
  if c = '"' then "\\\""
  else if c = '\\' then "\\\\"
  else if c = '\n' then "\\n"
  else if c = '\r' then "\\r"
  else if c = '\t' then "\\t"
  else if c = '<' then "\\u003c"
  else if c = '>' then "\\u003e"
  else if c = '&' then "\\u0026"
  else if c.toNat < 32 then
    "\\u00" ++ String.mk [(Nat.digitChar (c.toNat / 16)), (Nat.digitChar (c.toNat % 16))]
  else String.mk [c]

/-- Go JSON string literal: quoted and escaped. -/
def escapeString (s : String) : String :=
  "\"" ++ String.join (s.data.map escapeChar) ++ "\""

mutual
/-- JSON text of a value as produced by Go's `json.Marshal` on the
generic values gojq yields (numbers modelled as integers; object keys
are already in the sorted order `json.Marshal` emits Go maps in). -/
def jsonText : Json → String
  | .null => "null"
  | .bool true => "true"
  | .bool false => "false"
  | .num n => toString n
  | .str s => escapeString s
  | .arr xs => "[" ++ jsonTextArr xs ++ "]"
  | .obj kvs => "\x7b" ++ jsonTextObj kvs ++ "\x7d"
/-- Comma-separated JSON text of array elements. -/
def jsonTextArr : List Json → String
  | [] => ""
  | [x] => jsonText x
  | x :: y :: xs => jsonText x ++ "," ++ jsonTextArr (y :: xs)
/-- Comma-separated JSON text of object entries. -/
def jsonTextObj : List (String × Json) → String
  | [] => ""
  | [(k, v)] => escapeString k ++ ":" ++ jsonText v
  | (k, v) :: p :: xs => escapeString k ++ ":" ++ jsonText v ++ "," ++ jsonTextObj (p :: xs)
end

/-- One item of the iterator sequence `filterMetadata` consumes: a yielded
value or a yielded error value. -/
inductive Item where
  | val (v : Json)
  | err (e : String)

/-- The iterator item sequence of a result stream: the values in order,
then the aborting error if there was one. -/
def streamItems : Stream → List Item
  | (vs, some e) => vs.map Item.val ++ [Item.err e]
  | (vs, none) => vs.map Item.val

/-- Go's `bytes.TrimSuffix(b, []byte("\n"))`: remove exactly one trailing
newline if present. -/
def trimSuffixNL (s : String) : String :=
  match s.data.reverse with
  | '\n' :: rest => ⟨rest.reverse⟩
  | _ => s

/-- The rendering loop of `filterMetadata` (ec2.go lines 172–198): walk the
iterator items with the accumulated buffer; skip `nil`, return the wrapped
error for an error item (discarding the buffer), append raw bytes for a
string and JSON text otherwise, each followed by one `'\n'`; at the end of
the stream trim one trailing newline from the buffer. -/
def renderLoop : List Item → String → Except String String
  | [], acc => .ok (trimSuffixNL acc)
  | .err e :: _, _ => .error ("error while filtering with gojq: " ++ e)
  | .val .null :: rest, acc => renderLoop rest acc
  | .val (.str s) :: rest, acc => renderLoop rest (acc ++ s ++ "\n")
  | .val v :: rest, acc => renderLoop rest (acc ++ jsonText v ++ "\n")

/-- The `json.Unmarshal(hw, &input)` step of `filterMetadata` with
`input : map[string]interface{}`: the hardware bytes are modelled as
`none` when they are not valid JSON at all, and as the parsed value
otherwise.  Unmarshalling succeeds on an object, and also on a top-level
JSON `null`, which `encoding/json` treats as a no-op that sets the map
to its zero value — the query then runs against the empty document.
Every other top-level value is an unmarshalling error. -/
def unmarshalObject : Option Json → Except String Json
  | none => .error "invalid JSON document"
  | some (.obj kvs) => .ok (.obj kvs)
  | some .null => .ok (.obj [])
  | some _ => .error "json: cannot unmarshal non-object value into map"

/-- Model of `filterMetadata` (ec2.go lines 161–199): parse the filter, unmarshal
the hardware document, run the query and render the result stream.  The
`gojq.Parse` result is passed in already elaborated (an `Except`), since
the parser of the query language is an external library; `gojqParse`
below instantiates it for the program's registered filter strings. -/
def filterMetadata (parsedFilter : Except String Query) (hw : Option Json) : Except String String :=
  match parsedFilter with
  | .error e => .error e
  | .ok query =>
    match unmarshalObject hw with
    | .error e => .error e
    | .ok input => renderLoop (streamItems (query input)) ""

/-! The filter registry `ec2Filters` (ec2.go lines 22–46), with each
filter string verbatim, and the embedded query of each filter string. -/

/-- Model of `ec2Filters` (ec2.go lines 22–46): canonical path → gojq filter
string, as an association list (the Go map literal, in source order). -/
def ec2Filters : List (String × String) :=
  [("", "\"meta-data\", \"user-data\""),
   ("/user-data", ".metadata.userdata"),
   ("/meta-data", "[\"instance-id\", \"hostname\", \"local-hostname\", \"iqn\", \"plan\", \"facility\", \"tags\", \"operating-system\", \"public-keys\", \"public-ipv4\", \"public-ipv6\", \"local-ipv4\"] + (if .metadata.instance.spot != null then [\"spot\"] else [] end) | sort | .[]"),
   ("/meta-data/instance-id", ".metadata.instance.id"),
   ("/meta-data/hostname", ".metadata.instance.hostname"),
   ("/meta-data/local-hostname", ".metadata.instance.hostname"),
   ("/meta-data/iqn", ".metadata.instance.iqn"),
   ("/meta-data/plan", ".metadata.instance.plan"),
   ("/meta-data/facility", ".metadata.instance.facility"),
   ("/meta-data/tags", ".metadata.instance.tags[]?"),
   ("/meta-data/operating-system", "[\"slug\", \"distro\", \"version\", \"license_activation\", \"image_tag\"] | sort | .[]"),
   ("/meta-data/operating-system/slug", ".metadata.instance.operating_system.slug"),
   ("/meta-data/operating-system/distro", ".metadata.instance.operating_system.distro"),
   ("/meta-data/operating-system/version", ".metadata.instance.operating_system.version"),
   ("/meta-data/operating-system/license_activation", "\"state\""),
   ("/meta-data/operating-system/license_activation/state", ".metadata.instance.operating_system.license_activation.state"),
   ("/meta-data/operating-system/image_tag", ".metadata.instance.operating_system.image_tag"),
   ("/meta-data/public-keys", ".metadata.instance.ssh_keys[]?"),
   ("/meta-data/spot", "\"termination-time\""),
   ("/meta-data/spot/termination-time", ".metadata.instance.spot.termination_time"),
   ("/meta-data/public-ipv4", ".metadata.instance.network.addresses[]? | select(.address_family == 4 and .public == true) | .address"),
   ("/meta-data/public-ipv6", ".metadata.instance.network.addresses[]? | select(.address_family == 6 and .public == true) | .address"),
   ("/meta-data/local-ipv4", ".metadata.instance.network.addresses[]? | select(.address_family == 4 and .public == false) | .address")]

/-- Embedded query of `"meta-data", "user-data"` (the base path filter). -/
def qRoot : Query := jqComma (jqConst (.str "meta-data")) (jqConst (.str "user-data"))

/-- Embedded query of `.metadata.userdata`. -/
def qUserData : Query := jqPipe (jqField "metadata") (jqField "userdata")

/-- Embedded query of the path expression `.metadata.instance.spot` (the
condition operand inside the `/meta-data` directory filter). -/
def qSpotChain : Query :=
  jqPipe (jqField "metadata") (jqPipe (jqField "instance") (jqField "spot"))

/-- The static name list of the `/meta-data` directory filter, in its
source order. -/
def mdStaticNames : List String :=
  ["instance-id", "hostname", "local-hostname", "iqn", "plan", "facility", "tags",
   "operating-system", "public-keys", "public-ipv4", "public-ipv6", "local-ipv4"]

/-- Embedded query of the `/meta-data` directory filter:
`[...static names...] + (if .metadata.instance.spot != null then ["spot"] else [] end) | sort | .[]`. -/
def qMetaData : Query :=
  jqPipe
    (jqPipe
      (jqBinop addVal (jqConst (.arr (mdStaticNames.map .str)))
        (jqIf (jqBinop neVal qSpotChain (jqConst .null))
          (jqConst (.arr [.str "spot"])) (jqConst (.arr []))))
      jqSort)
    jqIterate

/-- Embedded query of `.metadata.instance.id`. -/
def qInstanceId : Query :=
  jqPipe (jqField "metadata") (jqPipe (jqField "instance") (jqField "id"))

/-- Embedded query of `.metadata.instance.hostname`. -/
def qHostname : Query :=
  jqPipe (jqField "metadata") (jqPipe (jqField "instance") (jqField "hostname"))

/-- Embedded query of `.metadata.instance.iqn`. -/
def qIqn : Query :=
  jqPipe (jqField "metadata") (jqPipe (jqField "instance") (jqField "iqn"))

/-- Embedded query of `.metadata.instance.plan`. -/
def qPlan : Query :=
  jqPipe (jqField "metadata") (jqPipe (jqField "instance") (jqField "plan"))

/-- Embedded query of `.metadata.instance.facility`. -/
def qFacility : Query :=
  jqPipe (jqField "metadata") (jqPipe (jqField "instance") (jqField "facility"))

/-- Embedded query of the path expression `.metadata.instance.tags`. -/
def chainTags : Query :=
  jqPipe (jqField "metadata") (jqPipe (jqField "instance") (jqField "tags"))

/-- Embedded query of `.metadata.instance.tags[]?`. -/
def qTags : Query := jqPipe chainTags jqTryIterate

/-- Embedded query of the `/meta-data/operating-system` directory filter:
`["slug", "distro", "version", "license_activation", "image_tag"] | sort | .[]`. -/
def qOperatingSystem : Query :=
  jqPipe
    (jqPipe
      (jqConst (.arr (["slug", "distro", "version", "license_activation", "image_tag"].map .str)))
      jqSort)
    jqIterate

/-- Embedded query of `.metadata.instance.operating_system.slug`. -/
def qOSSlug : Query :=
  jqPipe (jqField "metadata") (jqPipe (jqField "instance")
    (jqPipe (jqField "operating_system") (jqField "slug")))

/-- Embedded query of `.metadata.instance.operating_system.distro`. -/
def qOSDistro : Query :=
  jqPipe (jqField "metadata") (jqPipe (jqField "instance")
    (jqPipe (jqField "operating_system") (jqField "distro")))

/-- Embedded query of `.metadata.instance.operating_system.version`. -/
def qOSVersion : Query :=
  jqPipe (jqField "metadata") (jqPipe (jqField "instance")
    (jqPipe (jqField "operating_system") (jqField "version")))

/-- Embedded query of `"state"` (the license_activation directory filter). -/
def qLicenseActivation : Query := jqConst (.str "state")

/-- Embedded query of `.metadata.instance.operating_system.license_activation.state`. -/
def qLicenseActivationState : Query :=
  jqPipe (jqField "metadata") (jqPipe (jqField "instance")
    (jqPipe (jqField "operating_system") (jqPipe (jqField "license_activation") (jqField "state"))))

/-- Embedded query of `.metadata.instance.operating_system.image_tag`. -/
def qOSImageTag : Query :=
  jqPipe (jqField "metadata") (jqPipe (jqField "instance")
    (jqPipe (jqField "operating_system") (jqField "image_tag")))

/-- Embedded query of `.metadata.instance.ssh_keys[]?`. -/
def qPublicKeys : Query :=
  jqPipe (jqPipe (jqField "metadata") (jqPipe (jqField "instance") (jqField "ssh_keys")))
    jqTryIterate

/-- Embedded query of `"termination-time"` (the spot directory filter). -/
def qSpot : Query := jqConst (.str "termination-time")

/-- Embedded query of `.metadata.instance.spot.termination_time`. -/
def qSpotTerminationTime : Query :=
  jqPipe (jqField "metadata") (jqPipe (jqField "instance")
    (jqPipe (jqField "spot") (jqField "termination_time")))

/-- Embedded query of the path expression
`.metadata.instance.network.addresses`. -/
def chainAddresses : Query :=
  jqPipe (jqField "metadata") (jqPipe (jqField "instance")
    (jqPipe (jqField "network") (jqField "addresses")))

/-- Embedded query of
`.metadata.instance.network.addresses[]? | select(.address_family == 4 and .public == true) | .address`. -/
def qPublicIpv4 : Query :=
  jqPipe
    (jqPipe (jqPipe chainAddresses jqTryIterate)
      (jqSelect (jqAnd (jqBinop eqVal (jqField "address_family") (jqConst (.num 4)))
        (jqBinop eqVal (jqField "public") (jqConst (.bool true))))))
    (jqField "address")

/-- Embedded query of
`.metadata.instance.network.addresses[]? | select(.address_family == 6 and .public == true) | .address`. -/
def qPublicIpv6 : Query :=
  jqPipe
    (jqPipe (jqPipe chainAddresses jqTryIterate)
      (jqSelect (jqAnd (jqBinop eqVal (jqField "address_family") (jqConst (.num 6)))
        (jqBinop eqVal (jqField "public") (jqConst (.bool true))))))
    (jqField "address")

/-- Embedded query of
`.metadata.instance.network.addresses[]? | select(.address_family == 4 and .public == false) | .address`. -/
def qLocalIpv4 : Query :=
  jqPipe
    (jqPipe (jqPipe chainAddresses jqTryIterate)
      (jqSelect (jqAnd (jqBinop eqVal (jqField "address_family") (jqConst (.num 4)))
        (jqBinop eqVal (jqField "public") (jqConst (.bool false))))))
    (jqField "address")

/-- The embedded query of each distinct filter string appearing in
`ec2Filters`. -/
def gojqParseTable : List (String × Query) :=
  [("\"meta-data\", \"user-data\"", qRoot),
   (".metadata.userdata", qUserData),
   ("[\"instance-id\", \"hostname\", \"local-hostname\", \"iqn\", \"plan\", \"facility\", \"tags\", \"operating-system\", \"public-keys\", \"public-ipv4\", \"public-ipv6\", \"local-ipv4\"] + (if .metadata.instance.spot != null then [\"spot\"] else [] end) | sort | .[]", qMetaData),
   (".metadata.instance.id", qInstanceId),
   (".metadata.instance.hostname", qHostname),
   (".metadata.instance.iqn", qIqn),
   (".metadata.instance.plan", qPlan),
   (".metadata.instance.facility", qFacility),
   (".metadata.instance.tags[]?", qTags),
   ("[\"slug\", \"distro\", \"version\", \"license_activation\", \"image_tag\"] | sort | .[]", qOperatingSystem),
   (".metadata.instance.operating_system.slug", qOSSlug),
   (".metadata.instance.operating_system.distro", qOSDistro),
   (".metadata.instance.operating_system.version", qOSVersion),
   ("\"state\"", qLicenseActivation),
   (".metadata.instance.operating_system.license_activation.state", qLicenseActivationState),
   (".metadata.instance.operating_system.image_tag", qOSImageTag),
   (".metadata.instance.ssh_keys[]?", qPublicKeys),
   ("\"termination-time\"", qSpot),
   (".metadata.instance.spot.termination_time", qSpotTerminationTime),
   (".metadata.instance.network.addresses[]? | select(.address_family == 4 and .public == true) | .address", qPublicIpv4),
   (".metadata.instance.network.addresses[]? | select(.address_family == 6 and .public == true) | .address", qPublicIpv6),
   (".metadata.instance.network.addresses[]? | select(.address_family == 4 and .public == false) | .address", qLocalIpv4)]

/-- Parsing and compiling a filter string with gojq (`gojq.Parse` followed
by running the query), restricted to the program's own filter strings: the
query language implementation is an external library, so only the filter
strings the repository contains are given their compiled meaning. -/
def gojqParse (s : String) : Except String Query :=
  match List.lookup s gojqParseTable with
  | some q => .ok q
  | none => .error ("filter string not in the registry of this program: " ++ s)

/-! Path normalization and the request handler. -/

/-- Go's `strings.TrimPrefix` on character lists: remove the leading
prefix when present, otherwise return the input unchanged. -/
def goTrimPrefixL (s pre : List Char) : List Char :=
  if pre.isPrefixOf s then s.drop pre.length else s

/-- Go's `strings.TrimRight(s, "/")` on character lists: remove every
trailing `'/'`. -/
def goTrimRightSlashL (s : List Char) : List Char :=
  (s.reverse.dropWhile (· == '/')).reverse

/-- The canonical lookup key of a raw URL path (the normalization step of
`processEC2Query`, ec2.go line 204):
`strings.TrimRight(strings.TrimPrefix(url, "/2009-04-04"), "/")`. -/
def canonicalKeyL (url : List Char) : List Char :=
  goTrimRightSlashL (goTrimPrefixL url "/2009-04-04".data)

/-- Model of `processEC2Query` (ec2.go lines 203–212): normalize the URL and look
the canonical key up in `ec2Filters`; an unknown key is an error. -/
def processEC2Query (url : String) : Except String String :=
  let query : String := ⟨canonicalKeyL url.data⟩
  match List.lookup query ec2Filters with
  | some f => .ok f
  | none => .error ("invalid metadata item: " ++ query)

/-- An HTTP response: status code and body. -/
structure Response where
  status : Nat
  body : String
deriving DecidableEq

/-- The request-handling core of `ec2MetadataHandler` (ec2.go lines
138–158), given the already-exported hardware document: resolve the path
(a failure is a 404 with body thrown "404 not found"), then filter the
document with the resolved filter string; a filtering error is only
logged, and the `nil` result is written with an implicit 200. -/
def ec2MetadataHandler (ehw : Option Json) (path : String) : Response :=
  match processEC2Query path with
  | .error _ => ⟨404, "404 not found"⟩
  | .ok fs =>
    match filterMetadata (gojqParse fs) ehw with
    | .error _ => ⟨200, ""⟩
    | .ok body => ⟨200, body⟩

/-! Specification-side definitions: these follow the words of the spec and
of the claims rather than the source, and are compared with the
source-derived definitions above. -/

/-- Result of the Boolean `Except` test used in the error-handling
properties. -/
def isErrorResult {α : Type} : Except String α → Bool
  | .error _ => true
  | .ok _ => false

/-- A hardware document outside the domain `filterMetadata` unmarshals:
bytes that are not JSON at all, or whose top level is a value other than
an object or `null` (a top-level `null` unmarshals as the zero map and
is accepted). -/
def badDoc : Option Json → Bool
  | none => true
  | some (.obj _) => false
  | some .null => false
  | some _ => true

/-- Spec-side rendering of a single result value: nothing for `null`,
the raw bytes for a string, the canonical JSON text for any other value
(the per-item rule of the Result Renderer contract). -/
def emitValue : Json → Option String
  | .null => none
  | .str s => some s
  | v => some (jsonText v)

/-- Concatenation of a list of strings. -/
def concatAll : List String → String
  | [] => ""
  | s :: ss => s ++ concatAll ss

/-- Spec-side renderer: emit each item with a single `'\n'` appended,
then strip exactly one trailing line terminator if present (an empty
stream renders as the empty byte sequence). -/
def specRender (vs : List Json) : String :=
  trimSuffixNL (concatAll ((vs.filterMap emitValue).map (fun s => s ++ "\n")))

/-- The Path Normalizer exactly as the claim words it: strip the fixed
leading version-prefix literal and at most ONE trailing slash. -/
def claimedNormalizer (url : List Char) : List Char :=
  let t := goTrimPrefixL url "/2009-04-04".data
  match t.reverse with
  | '/' :: rest => rest.reverse
  | _ => t

/-- Spec-side object field access: the attribute's value when the input
is an object that has it, nothing otherwise. -/
def getField : Json → String → Option Json
  | .obj kvs, k => List.lookup k kvs
  | _, _ => none

/-- The document's `metadata.instance.spot` attribute, when the nested
objects exist and carry it. -/
def spotAttr (doc : Json) : Option Json :=
  ((getField doc "metadata").bind (fun m => getField m "instance")).bind
    (fun i => getField i "spot")

/-- Whether the document's `metadata.instance.spot` attribute exists and
is non-null (the condition of the conditional `spot` listing entry). -/
def spotPresent (doc : Json) : Bool :=
  match spotAttr doc with
  | some v => !jsonEq v .null
  | none => false

/-- The directory entries of the registry: the entries whose query yields
a static or conditional list of child names (`""`, `/meta-data`,
`/meta-data/operating-system`,
`/meta-data/operating-system/license_activation`, `/meta-data/spot`). -/
def ec2DirectoryEntries : List (String × Query) :=
  [("", qRoot),
   ("/meta-data", qMetaData),
   ("/meta-data/operating-system", qOperatingSystem),
   ("/meta-data/operating-system/license_activation", qLicenseActivation),
   ("/meta-data/spot", qSpot)]

/-- The `/meta-data` listing names when `spot` is hidden, in sorted order. -/
def mdNamesNoSpot : List String :=
  ["facility", "hostname", "instance-id", "iqn", "local-hostname", "local-ipv4",
   "operating-system", "plan", "public-ipv4", "public-ipv6", "public-keys", "tags"]

/-- The `/meta-data` listing names when `spot` is visible, in sorted order. -/
def mdNamesSpot : List String :=
  ["facility", "hostname", "instance-id", "iqn", "local-hostname", "local-ipv4",
   "operating-system", "plan", "public-ipv4", "public-ipv6", "public-keys", "spot", "tags"]

/-- The instance document of the end-to-end scenario (two IPv4 addresses,
one public and one private). -/
def doc8 : Json :=
  .obj [("metadata", .obj [("instance", .obj [("id", .str "i-1"), ("hostname", .str "h1"),
    ("network", .obj [("addresses", .arr [
      .obj [("address_family", .num 4), ("public", .bool true), ("address", .str "203.0.113.5")],
      .obj [("address_family", .num 4), ("public", .bool false), ("address", .str "10.0.0.5")]])])])])]

/-- A query is single-valued when on every input it yields exactly one
value, or aborts with an error before yielding anything (the behaviour
of field accesses and their pipes). -/
def SingleValued (q : Query) : Prop :=
  ∀ x, (∃ v, q x = ([v], none)) ∨ (∃ e, q x = ([], some e))

/-! Theorems. -/

theorem strAppendEmpty (a : String) : a ++ "" = a := by
  apply String.ext
  simp [String.data_append]

theorem strEmptyAppend (a : String) : "" ++ a = a := by
  apply String.ext
  simp [String.data_append]

theorem strAppendAssoc (a b c : String) : a ++ b ++ c = a ++ (b ++ c) := by
  apply String.ext
  simp [String.data_append]

theorem renderLoop_vals (vs : List Json) (acc : String) :
    renderLoop (vs.map Item.val) acc =
      .ok (trimSuffixNL (acc ++ concatAll ((vs.filterMap emitValue).map (fun s => s ++ "\n")))) := by
  induction vs generalizing acc with
  | nil => simp [renderLoop, concatAll, strAppendEmpty]
  | cons v vs ih =>
    cases v with
    | null => simpa [renderLoop, emitValue, concatAll] using ih acc
    | str s => simp [renderLoop, emitValue, concatAll, ih, strAppendAssoc]
    | bool b => simp [renderLoop, emitValue, concatAll, ih, strAppendAssoc]
    | num n => simp [renderLoop, emitValue, concatAll, ih, strAppendAssoc]
    | arr xs => simp [renderLoop, emitValue, concatAll, ih, strAppendAssoc]
    | obj kvs => simp [renderLoop, emitValue, concatAll, ih, strAppendAssoc]

/-- C1: for every result stream, the rendering loop of `filterMetadata`
emits, in evaluation order, nothing for a null value, the raw bytes for a
string value, and the canonical JSON text for any other value, with one
`'\n'` appended after each emitted item; one trailing `'\n'` is stripped
at the end, and the empty stream renders as the empty byte sequence. -/
theorem ec2_render_stream :
    (∀ vs : List Json, renderLoop (vs.map Item.val) "" = .ok (specRender vs)) ∧
    specRender [] = "" := by
  constructor
  · intro vs
    rw [renderLoop_vals vs "", specRender, strEmptyAppend]
  · rfl

theorem renderLoop_err (vs : List Json) (e : String) (acc : String) :
    renderLoop (vs.map Item.val ++ [Item.err e]) acc =
      .error ("error while filtering with gojq: " ++ e) := by
  induction vs generalizing acc with
  | nil => simp [renderLoop]
  | cons v vs ih => cases v <;> simp [renderLoop, ih]

/-- C6: if query evaluation fails at any point — the filter does not
compile, the document does not unmarshal, or an error value is yielded
mid-sequence — `filterMetadata` returns the error and emits no output
bytes; values buffered before the failure are never emitted. -/
theorem ec2_filter_error_atomic (ce msg : String) (q : Query) (hw : Option Json)
    (kvs : List (String × Json)) (vs : List Json) :
    filterMetadata (.error ce) hw = .error ce ∧
    (isErrorResult (unmarshalObject hw) = true →
      isErrorResult (filterMetadata (.ok q) hw) = true) ∧
    (q (.obj kvs) = (vs, some msg) →
      filterMetadata (.ok q) (some (.obj kvs)) =
        .error ("error while filtering with gojq: " ++ msg)) := by
  refine ⟨rfl, ?_, ?_⟩
  · intro h
    cases hw with
    | none => rfl
    | some j =>
      cases j with
      | obj kvs2 => simp [unmarshalObject, isErrorResult] at h
      | null => simp [unmarshalObject, isErrorResult] at h
      | bool b => rfl
      | num n => rfl
      | str s => rfl
      | arr xs => rfl
  · intro h
    simp [filterMetadata, unmarshalObject, streamItems, h, renderLoop_err]

theorem ec2_filter_error_atomic_witness :
    filterMetadata (.error "compile error") (some (.obj [])) = .error "compile error" ∧
    isErrorResult (filterMetadata (.ok (fun _ => ([], none))) (some (.arr []))) = true ∧
    filterMetadata (.ok (fun _ => ([Json.str "a"], some "boom"))) (some (.obj [])) =
      .error ("error while filtering with gojq: " ++ "boom") :=
  ⟨(ec2_filter_error_atomic "compile error" "boom" (fun _ => ([], none))
      (some (.arr [])) [] []).1,
   (ec2_filter_error_atomic "compile error" "boom" (fun _ => ([], none))
      (some (.arr [])) [] []).2.1 rfl,
   (ec2_filter_error_atomic "compile error" "boom" (fun _ => ([Json.str "a"], some "boom"))
      (some (.obj [])) [] [Json.str "a"]).2.2 rfl⟩

/-- C10 counterexample: the document bytes `null` do not parse as a JSON
object at the top level, yet `json.Unmarshal` into
`map[string]interface{}` accepts them (a no-op leaving the zero map), so
`filterMetadata` runs the query against the empty document and succeeds
— no error is returned. -/
theorem ec2_null_document_accepted_cex :
    unmarshalObject (some Json.null) = .ok (.obj []) ∧
    filterMetadata (gojqParse ".metadata.userdata") (some Json.null) = .ok "" ∧
    isErrorResult (filterMetadata (gojqParse ".metadata.userdata") (some Json.null)) =
      false :=
  ⟨rfl, rfl, rfl⟩

/-- C10 as amended: for every filter, `filterMetadata` returns an error
(and no output bytes) whenever the document bytes are malformed JSON or
parse to a top-level value other than an object or `null` — a top-level
array, string, number or boolean — before any query evaluation takes
place; a top-level `null` unmarshals as the empty document and is
accepted. -/
theorem ec2_non_object_document_rejected (q : Except String Query) (hw : Option Json)
    (h : badDoc hw = true) : isErrorResult (filterMetadata q hw) = true := by
  cases q with
  | error e => rfl
  | ok f =>
    cases hw with
    | none => rfl
    | some j =>
      cases j with
      | obj kvs => simp [badDoc] at h
      | null => simp [badDoc] at h
      | bool b => rfl
      | num n => rfl
      | str s => rfl
      | arr xs => rfl

theorem ec2_non_object_document_rejected_witness :
    isErrorResult (filterMetadata (.ok qUserData) (some (.str "not an object"))) = true :=
  ec2_non_object_document_rejected (.ok qUserData) (some (.str "not an object")) rfl

/-- C5: every path whose canonical form is not a key of the registry is
rejected with the terminal unknown-path error — for every hardware
document, so the query engine is never consulted for such a request. -/
theorem ec2_unknown_path_rejected (path : String)
    (h : List.lookup (⟨canonicalKeyL path.data⟩ : String) ec2Filters = none) :
    ∀ hw : Option Json, ec2MetadataHandler hw path = ⟨404, "404 not found"⟩ := by
  intro hw
  simp [ec2MetadataHandler, processEC2Query, h]

theorem ec2_unknown_path_rejected_witness :
    List.lookup (⟨canonicalKeyL "/2009-04-04/meta-data/nonexistent".data⟩ : String)
      ec2Filters = none ∧
    ec2MetadataHandler (some (.obj [])) "/2009-04-04/meta-data/nonexistent" =
      ⟨404, "404 not found"⟩ :=
  ⟨rfl, ec2_unknown_path_rejected "/2009-04-04/meta-data/nonexistent" rfl (some (.obj []))⟩

/-- C8: on the end-to-end scenario document, requesting
`/meta-data/public-ipv4` renders exactly `203.0.113.5` and
`/meta-data/local-ipv4` renders exactly `10.0.0.5`. -/
theorem ec2_end_to_end_ipv4 :
    ec2MetadataHandler (some doc8) "/2009-04-04/meta-data/public-ipv4" =
      ⟨200, "203.0.113.5"⟩ ∧
    ec2MetadataHandler (some doc8) "/2009-04-04/meta-data/local-ipv4" =
      ⟨200, "10.0.0.5"⟩ :=
  ⟨rfl, rfl⟩

/-- C9: `/meta-data/spot` and `/meta-data/spot/termination-time` resolve
to their registered filters unconditionally — `processEC2Query` consults
no document — even for documents whose `spot` attribute is null or
absent, which are exactly the documents whose `/meta-data` listing omits
`spot`. -/
theorem ec2_spot_paths_resolve :
    processEC2Query "/2009-04-04/meta-data/spot" = .ok "\"termination-time\"" ∧
    processEC2Query "/2009-04-04/meta-data/spot/termination-time" =
      .ok ".metadata.instance.spot.termination_time" ∧
    (qMetaData (Json.obj [("metadata", Json.obj [("instance",
      Json.obj [("spot", Json.null)])])])).1 = mdNamesNoSpot.map Json.str ∧
    (qMetaData (Json.obj [])).1 = mdNamesNoSpot.map Json.str :=
  ⟨rfl, rfl, rfl, rfl⟩

theorem goTrimPrefixL_append (pre x : List Char) : goTrimPrefixL (pre ++ x) pre = x := by
  have hp : pre.isPrefixOf (pre ++ x) = true := by
    rw [ List.isPrefixOf_iff_prefix]
    exact ⟨x, rfl⟩
  simp [goTrimPrefixL, hp, List.drop_left]

theorem dropWhile_slash_replicate (k : Nat) (l : List Char) :
    List.dropWhile (· == '/') (List.replicate k '/' ++ l) =
      List.dropWhile (· == '/') l := by
  induction k with
  | zero => simp
  | succ k ih => simp [List.replicate_succ, List.dropWhile, ih]

theorem goTrimRightSlashL_append (p : List Char) (k : Nat) :
    goTrimRightSlashL (p ++ List.replicate k '/') = goTrimRightSlashL p := by
  rw [goTrimRightSlashL, goTrimRightSlashL, List.reverse_append, List.reverse_replicate,
    dropWhile_slash_replicate]

/-- C4 counterexample: on the raw path `/2009-04-04/meta-data//`, the
normalizer of `processEC2Query` produces `/meta-data` — it strips BOTH
trailing slashes — while the claimed at-most-one-slash normalizer would
produce `/meta-data/`. -/
theorem ec2_normalizer_two_slashes_cex :
    canonicalKeyL "/2009-04-04/meta-data//".data = "/meta-data".data ∧
    claimedNormalizer "/2009-04-04/meta-data//".data = "/meta-data/".data ∧
    "/meta-data".data ≠ "/meta-data/".data :=
  ⟨rfl, rfl, by decide⟩

/-- C4 as amended: the path normalizer strips the fixed leading
version-prefix literal and ALL trailing `'/'` characters — however many
trailing slashes a path carries beyond the prefix, none survive
normalization. -/
theorem ec2_normalizer_strips_all_trailing_slashes (p : List Char) (k : Nat) :
    canonicalKeyL ("/2009-04-04".data ++ p ++ List.replicate k '/') =
      goTrimRightSlashL p := by
  rw [List.append_assoc, canonicalKeyL, goTrimPrefixL_append, goTrimRightSlashL_append]

theorem jsonEq_null_iff (v : Json) : jsonEq v .null = true ↔ v = .null := by
  cases v <;> simp [jsonEq]

theorem jqField_single (n : String) : SingleValued (jqField n) := by
  intro x
  cases x with
  | null => exact .inl ⟨.null, rfl⟩
  | obj kvs => exact .inl ⟨_, rfl⟩
  | bool b => exact .inr ⟨_, rfl⟩
  | num m => exact .inr ⟨_, rfl⟩
  | str s => exact .inr ⟨_, rfl⟩
  | arr xs => exact .inr ⟨_, rfl⟩

theorem jqPipe_single {f g : Query} (hf : SingleValued f) (hg : SingleValued g) :
    SingleValued (jqPipe f g) := by
  intro x
  rcases hf x with ⟨v, hv⟩ | ⟨e, he⟩
  · rcases hg v with ⟨w, hw⟩ | ⟨e, he2⟩
    · exact .inl ⟨w, by simp [jqPipe, hv, seqRun, hw, firstErr]⟩
    · exact .inr ⟨e, by simp [jqPipe, hv, seqRun, he2, firstErr]⟩
  · exact .inr ⟨e, by simp [jqPipe, he, seqRun, firstErr]⟩

theorem qSpotChain_spec (doc : Json) :
    (∃ v, qSpotChain doc = ([v], none) ∧ spotPresent doc = !jsonEq v .null) ∨
    (∃ e, qSpotChain doc = ([], some e)) := by
  cases doc with
  | null => exact .inl ⟨.null, rfl, rfl⟩
  | bool b => exact .inr ⟨"expected an object but got incompatible value for .metadata", rfl⟩
  | num m => exact .inr ⟨"expected an object but got incompatible value for .metadata", rfl⟩
  | str s => exact .inr ⟨"expected an object but got incompatible value for .metadata", rfl⟩
  | arr xs => exact .inr ⟨"expected an object but got incompatible value for .metadata", rfl⟩
  | obj kvs =>
    cases hm : List.lookup "metadata" kvs with
    | none =>
      refine .inl ⟨.null, ?_, ?_⟩
      · simp [qSpotChain, jqPipe, jqField, hm, seqRun, firstErr]
      · simp [spotPresent, spotAttr, getField, hm, jsonEq]
    | some m =>
      cases m with
      | null =>
        refine .inl ⟨.null, ?_, ?_⟩
        · simp [qSpotChain, jqPipe, jqField, hm, seqRun, firstErr]
        · simp [spotPresent, spotAttr, getField, hm, jsonEq]
      | bool b =>
        refine .inr ⟨"expected an object but got incompatible value for .instance", ?_⟩
        simp [qSpotChain, jqPipe, jqField, hm, seqRun, firstErr]
      | num x =>
        refine .inr ⟨"expected an object but got incompatible value for .instance", ?_⟩
        simp [qSpotChain, jqPipe, jqField, hm, seqRun, firstErr]
      | str s =>
        refine .inr ⟨"expected an object but got incompatible value for .instance", ?_⟩
        simp [qSpotChain, jqPipe, jqField, hm, seqRun, firstErr]
      | arr xs =>
        refine .inr ⟨"expected an object but got incompatible value for .instance", ?_⟩
        simp [qSpotChain, jqPipe, jqField, hm, seqRun, firstErr]
      | obj kvs2 =>
        cases hi : List.lookup "instance" kvs2 with
        | none =>
          refine .inl ⟨.null, ?_, ?_⟩
          · simp [qSpotChain, jqPipe, jqField, hm, hi, seqRun, firstErr]
          · simp [spotPresent, spotAttr, getField, hm, hi, jsonEq]
        | some i =>
          cases i with
          | null =>
            refine .inl ⟨.null, ?_, ?_⟩
            · simp [qSpotChain, jqPipe, jqField, hm, hi, seqRun, firstErr]
            · simp [spotPresent, spotAttr, getField, hm, hi, jsonEq]
          | bool b =>
            refine .inr ⟨"expected an object but got incompatible value for .spot", ?_⟩
            simp [qSpotChain, jqPipe, jqField, hm, hi, seqRun, firstErr]
          | num x =>
            refine .inr ⟨"expected an object but got incompatible value for .spot", ?_⟩
            simp [qSpotChain, jqPipe, jqField, hm, hi, seqRun, firstErr]
          | str s =>
            refine .inr ⟨"expected an object but got incompatible value for .spot", ?_⟩
            simp [qSpotChain, jqPipe, jqField, hm, hi, seqRun, firstErr]
          | arr xs =>
            refine .inr ⟨"expected an object but got incompatible value for .spot", ?_⟩
            simp [qSpotChain, jqPipe, jqField, hm, hi, seqRun, firstErr]
          | obj kvs3 =>
            cases hs : List.lookup "spot" kvs3 with
            | none =>
              refine .inl ⟨.null, ?_, ?_⟩
              · simp [qSpotChain, jqPipe, jqField, hm, hi, hs, seqRun, firstErr]
              · simp [spotPresent, spotAttr, getField, hm, hi, hs, jsonEq]
            | some w =>
              refine .inl ⟨w, ?_, ?_⟩
              · simp [qSpotChain, jqPipe, jqField, hm, hi, hs, seqRun, firstErr]
              · simp [spotPresent, spotAttr, getField, hm, hi, hs]

theorem spotCond_eval (doc v : Json) (hv : qSpotChain doc = ([v], none)) :
    jqBinop neVal qSpotChain (jqConst .null) doc = ([.bool (!jsonEq v .null)], none) := by
  simp [jqBinop, jqConst, hv, pairsRL, opAll, neVal, firstErr]

theorem spotCond_eval_err (doc : Json) (e : String) (he : qSpotChain doc = ([], some e)) :
    jqBinop neVal qSpotChain (jqConst .null) doc = ([], some e) := by
  simp [jqBinop, jqConst, he, pairsRL, opAll, firstErr]

theorem qMetaData_shape (doc : Json) :
    (qMetaData doc = (mdNamesNoSpot.map Json.str, none) ∧ spotPresent doc = false) ∨
    (qMetaData doc = (mdNamesSpot.map Json.str, none) ∧ spotPresent doc = true) ∨
    (∃ e, qMetaData doc = ([], some e)) := by
  rcases qSpotChain_spec doc with ⟨v, hv, hs⟩ | ⟨e, he⟩
  · have hcond := spotCond_eval doc v hv
    cases hb : jsonEq v .null with
    | true =>
      rw [hb] at hcond hs
      simp only [Bool.not_true] at hcond hs
      left
      refine ⟨?_, hs⟩
      have hif : jqIf (jqBinop neVal qSpotChain (jqConst .null))
          (jqConst (.arr [.str "spot"])) (jqConst (.arr [])) doc = ([.arr []], none) := by
        simp [jqIf, hcond, seqRun, jqConst, jqTruthy, firstErr]
      have hadd : jqBinop addVal (jqConst (.arr (mdStaticNames.map .str)))
          (jqIf (jqBinop neVal qSpotChain (jqConst .null))
            (jqConst (.arr [.str "spot"])) (jqConst (.arr []))) doc
          = ([.arr (mdStaticNames.map .str)], none) := by
        simp [jqBinop, jqConst, hif, pairsRL, opAll, addVal, firstErr]
      have hsorted : jqSortList (List.map Json.str mdStaticNames) =
          List.map Json.str mdNamesNoSpot := by rfl
      simp [qMetaData, jqPipe, seqRun, jqIterate, jqSort, firstErr, hadd, hsorted]
    | false =>
      rw [hb] at hcond hs
      simp only [Bool.not_false] at hcond hs
      right; left
      refine ⟨?_, hs⟩
      have hif : jqIf (jqBinop neVal qSpotChain (jqConst .null))
          (jqConst (.arr [.str "spot"])) (jqConst (.arr [])) doc
          = ([.arr [.str "spot"]], none) := by
        simp [jqIf, hcond, seqRun, jqConst, jqTruthy, firstErr]
      have hadd : jqBinop addVal (jqConst (.arr (mdStaticNames.map .str)))
          (jqIf (jqBinop neVal qSpotChain (jqConst .null))
            (jqConst (.arr [.str "spot"])) (jqConst (.arr []))) doc
          = ([.arr (mdStaticNames.map .str ++ [.str "spot"])], none) := by
        simp [jqBinop, jqConst, hif, pairsRL, opAll, addVal, firstErr]
      have hsorted : jqSortList (List.map Json.str mdStaticNames ++ [Json.str "spot"]) =
          List.map Json.str mdNamesSpot := by rfl
      simp [qMetaData, jqPipe, seqRun, jqIterate, jqSort, firstErr, hadd, hsorted]
  · have hcond := spotCond_eval_err doc e he
    right; right
    refine ⟨e, ?_⟩
    have hif : jqIf (jqBinop neVal qSpotChain (jqConst .null))
        (jqConst (.arr [.str "spot"])) (jqConst (.arr [])) doc = ([], some e) := by
      simp [jqIf, hcond, seqRun, firstErr]
    have hadd : jqBinop addVal (jqConst (.arr (mdStaticNames.map .str)))
        (jqIf (jqBinop neVal qSpotChain (jqConst .null))
          (jqConst (.arr [.str "spot"])) (jqConst (.arr []))) doc
        = ([], some e) := by
      simp [jqBinop, jqConst, hif, pairsRL, opAll, firstErr]
    simp [qMetaData, jqPipe, seqRun, jqIterate, jqSort, firstErr, hadd]

/-- C3: whenever the `/meta-data` directory-listing query evaluates
without error, it yields a lexicographically sorted list of names, and
`"spot"` is among them if and only if the document's
`metadata.instance.spot` attribute exists and is non-null. -/
theorem ec2_metadata_listing_spot (doc : Json) (vs : List Json)
    (h : qMetaData doc = (vs, none)) :
    ∃ names : List String, vs = names.map Json.str ∧
      names.Pairwise (fun a b => strLeL a.data b.data = true) ∧
      ("spot" ∈ names ↔ spotPresent doc = true) := by
  rcases qMetaData_shape doc with ⟨h1, h2⟩ | ⟨h1, h2⟩ | ⟨e, h1⟩
  · refine ⟨mdNamesNoSpot, ?_, by decide, ?_⟩
    · have := h1.symm.trans h
      exact (Prod.mk.injEq .. ▸ this).1.symm
    · rw [h2]
      decide
  · refine ⟨mdNamesSpot, ?_, by decide, ?_⟩
    · have := h1.symm.trans h
      exact (Prod.mk.injEq .. ▸ this).1.symm
    · rw [h2]
      decide
  · rw [h1] at h
    exact absurd ((Prod.mk.injEq .. ▸ h).2) (by simp)

theorem ec2_metadata_listing_spot_witness :
    (∃ names : List String, mdNamesNoSpot.map Json.str = names.map Json.str ∧
      names.Pairwise (fun a b => strLeL a.data b.data = true) ∧
      ("spot" ∈ names ↔ spotPresent Json.null = true)) ∧
    (∃ names : List String, mdNamesSpot.map Json.str = names.map Json.str ∧
      names.Pairwise (fun a b => strLeL a.data b.data = true) ∧
      ("spot" ∈ names ↔ spotPresent (Json.obj [("metadata", Json.obj [("instance",
        Json.obj [("spot", Json.bool true)])])]) = true)) :=
  ⟨ec2_metadata_listing_spot Json.null (mdNamesNoSpot.map Json.str) rfl,
   ec2_metadata_listing_spot (Json.obj [("metadata", Json.obj [("instance",
     Json.obj [("spot", Json.bool true)])])]) (mdNamesSpot.map Json.str) rfl⟩

/-- C2: for every directory entry of the registry and every instance
document, each name yielded by evaluating the directory query resolves,
as a child path of that directory, to an entry present in the registry —
no dangling listing entries. -/
theorem ec2_directory_listings_resolve (d : String) (q : Query)
    (hmem : (d, q) ∈ ec2DirectoryEntries) (doc : Json) (v : Json)
    (hv : v ∈ (q doc).1) :
    ∃ s, v = .str s ∧ (List.lookup (d ++ "/" ++ s) ec2Filters).isSome = true := by
  have hallN : ∀ s ∈ mdNamesNoSpot,
      (List.lookup ("/meta-data" ++ "/" ++ s) ec2Filters).isSome = true := by decide
  have hallS : ∀ s ∈ mdNamesSpot,
      (List.lookup ("/meta-data" ++ "/" ++ s) ec2Filters).isSome = true := by decide
  have hallOS : ∀ s ∈ ["distro", "image_tag", "license_activation", "slug", "version"],
      (List.lookup ("/meta-data/operating-system" ++ "/" ++ s) ec2Filters).isSome = true := by
    decide
  simp only [ec2DirectoryEntries, List.mem_cons, List.not_mem_nil, or_false] at hmem
  rcases hmem with h | h | h | h | h <;> rw [Prod.mk.injEq] at h <;>
    obtain ⟨rfl, rfl⟩ := h
  · have hq : qRoot doc = ([.str "meta-data", .str "user-data"], none) := rfl
    rw [hq] at hv
    simp only [List.mem_cons, List.not_mem_nil, or_false] at hv
    rcases hv with rfl | rfl
    · exact ⟨"meta-data", rfl, by rfl⟩
    · exact ⟨"user-data", rfl, by rfl⟩
  · rcases qMetaData_shape doc with ⟨h1, _⟩ | ⟨h1, _⟩ | ⟨e, h1⟩ <;>
      simp only [h1] at hv
    · simp only [List.mem_map] at hv
      obtain ⟨s, hsmem, rfl⟩ := hv
      exact ⟨s, rfl, hallN s hsmem⟩
    · simp only [List.mem_map] at hv
      obtain ⟨s, hsmem, rfl⟩ := hv
      exact ⟨s, rfl, hallS s hsmem⟩
    · simp at hv
  · have hq : qOperatingSystem doc =
        (["distro", "image_tag", "license_activation", "slug", "version"].map Json.str,
          none) := rfl
    rw [hq] at hv
    simp only [List.mem_map] at hv
    obtain ⟨s, hsmem, rfl⟩ := hv
    exact ⟨s, rfl, hallOS s hsmem⟩
  · have hq : qLicenseActivation doc = ([.str "state"], none) := rfl
    rw [hq] at hv
    simp only [List.mem_cons, List.not_mem_nil, or_false] at hv
    obtain rfl := hv
    exact ⟨"state", rfl, by rfl⟩
  · have hq : qSpot doc = ([.str "termination-time"], none) := rfl
    rw [hq] at hv
    simp only [List.mem_cons, List.not_mem_nil, or_false] at hv
    obtain rfl := hv
    exact ⟨"termination-time", rfl, by rfl⟩

theorem ec2_directory_listings_resolve_witness :
    ∃ s, Json.str "meta-data" = .str s ∧
      (List.lookup ("" ++ "/" ++ s) ec2Filters).isSome = true :=
  ec2_directory_listings_resolve "" qRoot (by exact .head _) (Json.obj [])
    (.str "meta-data") (by exact .head _)

/-- C7: the query registered for `/meta-data/tags` renders a document
whose `metadata.instance.tags` is `["a","b"]` as exactly `a\nb`
(newline-joined, no trailing newline), and a document where that
attribute is absent or null as the empty byte sequence with no error. -/
theorem ec2_tags_rendering (kvs : List (String × Json)) :
    processEC2Query "/2009-04-04/meta-data/tags" = .ok ".metadata.instance.tags[]?" ∧
    (chainTags (.obj kvs) = ([.arr [.str "a", .str "b"]], none) →
      filterMetadata (gojqParse ".metadata.instance.tags[]?") (some (.obj kvs)) =
        .ok "a\nb") ∧
    (chainTags (.obj kvs) = ([.null], none) →
      filterMetadata (gojqParse ".metadata.instance.tags[]?") (some (.obj kvs)) =
        .ok "") := by
  have hp : gojqParse ".metadata.instance.tags[]?" = .ok qTags := rfl
  refine ⟨rfl, ?_, ?_⟩ <;> intro h
  · have hq : qTags (Json.obj kvs) = ([.str "a", .str "b"], none) := by
      simp [qTags, jqPipe, h, seqRun, jqTryIterate, firstErr]
    rw [hp]
    simp only [filterMetadata, unmarshalObject]
    rw [hq]
    rfl
  · have hq : qTags (Json.obj kvs) = ([], none) := by
      simp [qTags, jqPipe, h, seqRun, jqTryIterate, firstErr]
    rw [hp]
    simp only [filterMetadata, unmarshalObject]
    rw [hq]
    rfl

theorem ec2_tags_rendering_witness :
    filterMetadata (gojqParse ".metadata.instance.tags[]?")
      (some (.obj [("metadata", .obj [("instance",
        .obj [("tags", .arr [.str "a", .str "b"])])])])) = .ok "a\nb" ∧
    filterMetadata (gojqParse ".metadata.instance.tags[]?") (some (.obj [])) = .ok "" :=
  ⟨(ec2_tags_rendering [("metadata", .obj [("instance",
      .obj [("tags", .arr [.str "a", .str "b"])])])]).2.1 rfl,
   (ec2_tags_rendering []).2.2 rfl⟩

end Hegel
